import Mathlib

/-!
Verification of the bot runtime orchestration layer of Free-GPT4-WEB-API
(src/telegram_bot.py, src/slack_bot.py, src/config.py).

Strings from the Python source are embedded as `List Char`; the external
collaborators (user store, AI backend, platform SDK) are embedded as explicit
oracles (`BackendEnv`), and fallible Python calls are embedded as
`Except String`.  The async control flow of the adapters is embedded as the
deterministic sequence of operations the coroutine performs, recorded as an
event trace.
-/

/-- The set of characters stripped by Python `str.strip()` with no argument
(ASCII portion; only emptiness of the stripped text is ever consulted by the
adapters). -/
def pyWhitespace (c : Char) : Bool :=
  c == ' ' || c == '\t' || c == '\n' || c == '\r' || c == Char.ofNat 11 || c == Char.ofNat 12

/-- Python `text.strip()`: remove leading and trailing whitespace. -/
def pyStrip (l : List Char) : List Char :=
  ((l.dropWhile pyWhitespace).reverse.dropWhile pyWhitespace).reverse

/-- Helper for Python `str.rfind`: scan indices `k, k-1, ..., 0` and return the
first (hence largest) index at which `pat` occurs in `s`. -/
def rfindFrom (s pat : List Char) : Nat → Option Nat
  | 0 => if List.isPrefixOf pat s then some 0 else none
  | k + 1 =>
    if List.isPrefixOf pat (s.drop (k + 1)) then some (k + 1) else rfindFrom s pat k

/-- Python `s.rfind(pat)` for a non-empty pattern: the largest index at which
`pat` occurs as a contiguous substring of `s` (`none` for Python `-1`). -/
def rfind (s pat : List Char) : Option Nat :=
  rfindFrom s pat s.length

/-- The split-point selection of `_split_message` (telegram_bot.py lines 44-50):
`split_idx = window.rfind("\n\n")`, else `window.rfind("\n")`, else `max_len`. -/
def bestSplit (window : List Char) (maxLen : Nat) : Nat :=
  match rfind window ['\n', '\n'] with
  | some i => i
  | none =>
    match rfind window ['\n'] with
    | some i => i
    | none => maxLen

/-- The `while remaining:` loop of `_split_message` (telegram_bot.py lines
40-52).  The fuel argument embeds the unbounded Python loop; for `1 ≤ maxLen`
every iteration strictly shrinks `remaining`, so fuel `remaining.length + 1`
is never exhausted (the loop terminates). -/
def splitSteps (maxLen : Nat) : Nat → List Char → List (List Char)
  | 0, _ => []
  | fuel + 1, remaining =>
    if remaining.isEmpty then []
    else if remaining.length ≤ maxLen then [remaining]
    else
      let idx := bestSplit (remaining.take maxLen) maxLen
      remaining.take idx ::
        splitSteps maxLen fuel ((remaining.drop idx).dropWhile (fun c => c == '\n'))

/-- `_split_message(text, max_len)` from telegram_bot.py lines 34-53. -/
def splitMessage (text : List Char) (maxLen : Nat) : List (List Char) :=
  if text.length ≤ maxLen then [text]
  else splitSteps maxLen (text.length + 1) text

/-- Specification predicate for the segmenter contract: the original text is
recovered by concatenating the chunks, re-inserting the run of newlines that
`remaining.lstrip("\n")` removed at each split boundary. -/
inductive Reconstructs : List (List Char) → List Char → Prop
  | nil : Reconstructs [] []
  | cons {c w : List Char} {cs : List (List Char)} {t : List Char} :
      (∀ x ∈ w, x = '\n') → Reconstructs cs t → Reconstructs (c :: cs) (c ++ w ++ t)

/-- The external collaborators consumed by `_generate_answer`: the user store
(`db_manager.get_user_by_username` / `db_manager.create_user`) and the AI
backend (`ai_service.generate_response`).  A raised Python exception is
embedded as `Except.error`; a user record only matters through its truthiness,
so it is embedded as `Unit`. -/
structure BackendEnv where
  get_user_by_username : String → Except String (Option Unit)
  create_user : String → Except String Unit
  generate_response : List Char → String → Bool → Bool → Bool → String → Except String (List Char)

/-- The fixed apology string returned by both `_generate_answer` functions on
any AI-backend failure (telegram_bot.py line 79, slack_bot.py line 51).  The
apostrophe is written via its code point. -/
def fallbackText : List Char :=
  "Sorry, I couldn".data ++ [Char.ofNat 39] ++ "t get a response right now. Please try again.".data

/-- `_generate_answer(text, username)` from telegram_bot.py lines 56-79: the
outer `try` converts any lookup or backend failure into the apology string;
the inner `try` converts a creation failure into the shared "admin" identity. -/
def telegram_generate_answer (env : BackendEnv) (cookies : String)
    (text : List Char) (username : String) : List Char :=
  match env.get_user_by_username username with
  | Except.error _ => fallbackText
  | Except.ok user =>
    let username2 :=
      if user.isNone then
        match env.create_user username with
        | Except.ok _ => username
        | Except.error _ => "admin"
      else username
    match env.generate_response text username2 true true false cookies with
    | Except.ok reply => reply
    | Except.error _ => fallbackText

/-- `_generate_answer(text, user_id)` from slack_bot.py lines 25-51: identical
to the Telegram version except that the virtual username `"slack_" + user_id`
is derived inside the function. -/
def slack_generate_answer (env : BackendEnv) (cookies : String)
    (text : List Char) (user_id : String) : List Char :=
  let username := "slack_" ++ user_id
  match env.get_user_by_username username with
  | Except.error _ => fallbackText
  | Except.ok user =>
    let username2 :=
      if user.isNone then
        match env.create_user username with
        | Except.ok _ => username
        | Except.error _ => "admin"
      else username
    match env.generate_response text username2 true true false cookies with
    | Except.ok reply => reply
    | Except.error _ => fallbackText

/-- The operations a platform adapter performs for one inbound message, in
program order. -/
inductive AdapterEv where
  | startTyping : AdapterEv
  | orchestrate : List Char → String → AdapterEv
  | cancelTyping : AdapterEv
  | sendChunk : List Char → AdapterEv
  deriving DecidableEq

/-- The fields of a Telegram `Update` consulted by `handle_message`:
`update.message` (whose `.text` may itself be `None`) and
`update.effective_user` (embedded by its id, rendered as a string). -/
structure TgUpdate where
  message : Option (Option (List Char))
  effective_user : Option String

/-- The sequence of operations performed by `handle_message` (telegram_bot.py
lines 93-116): guard on missing message or user, guard on whitespace-only
text, then start the typing task, call `_generate_answer`, cancel the typing
task, and send each chunk of the split reply in order. -/
def handle_message_trace (env : BackendEnv) (cookies : String) (u : TgUpdate) :
    List AdapterEv :=
  match u.message, u.effective_user with
  | none, _ => []
  | some _, none => []
  | some textOpt, some uid =>
    let text := textOpt.getD []
    if (pyStrip text).isEmpty then []
    else
      let username := "tg_" ++ uid
      AdapterEv.startTyping :: AdapterEv.orchestrate text username ::
        AdapterEv.cancelTyping ::
        (splitMessage (telegram_generate_answer env cookies text username) 4000).map
          AdapterEv.sendChunk

/-- The body of `_typing_loop` (telegram_bot.py lines 119-130), indexed by the
number of send-and-sleep iterations that run before the cancellation is
delivered at an await point.  Each send attempt is wrapped in
`try ... except Exception: pass`, so its outcome is discarded; the delivered
cancellation is the error the loop body ends with. -/
def typing_loop_body (send : Nat → Except String Unit) : Nat → Except String Unit
  | 0 => Except.error "CancelledError"
  | n + 1 =>
    match send n with
    | _ => typing_loop_body send n

/-- `_typing_loop` with its outer `try ... except asyncio.CancelledError:
return`, which converts the delivered cancellation into a quiet normal exit. -/
def typing_loop_run (send : Nat → Except String Unit) (cancelAt : Nat) :
    Except String Unit :=
  match typing_loop_body send cancelAt with
  | Except.error e => if e = "CancelledError" then Except.ok () else Except.error e
  | Except.ok u => Except.ok u

/-- The fields of a Slack message event consulted by the Slack handler:
`message.get("text", "")` and `message.get("user", "unknown")`. -/
structure SlackMsg where
  text : Option (List Char)
  user : Option String

/-- The sequence of operations performed by the Slack `handle_message`
registered in `_register_handlers` (slack_bot.py lines 80-90): guard on
whitespace-only text, call `_generate_answer`, then `say(reply)` — one send of
the whole reply, with no typing task and no splitting. -/
def slack_handle_message_trace (env : BackendEnv) (cookies : String)
    (m : SlackMsg) : List AdapterEv :=
  let text := m.text.getD []
  let user_id := m.user.getD "unknown"
  if (pyStrip text).isEmpty then []
  else
    [AdapterEv.orchestrate text user_id,
     AdapterEv.sendChunk (slack_generate_answer env cookies text user_id)]

/-- The externally observable actions of a launcher invocation. -/
inductive LaunchEv where
  | logDisabled : LaunchEv
  | probeScheduler : LaunchEv
  | scheduleWebhookTask : LaunchEv
  | schedulePollingTask : LaunchEv
  | startThread : LaunchEv
  deriving DecidableEq

/-- Python truthiness of an optional token: `None` and `""` are falsy. -/
def pyTruthy : Option String → Bool
  | none => false
  | some s => !s.isEmpty

/-- Python `token_override or config...token`. -/
def orTok (override cfg : Option String) : Option String :=
  if pyTruthy override then override else cfg

/-- `start_telegram_bot` (telegram_bot.py lines 144-203) as result plus action
trace: the missing-token check short-circuits before the
`asyncio.get_running_loop()` probe; with a running loop the launcher schedules
the webhook or polling task and returns it; otherwise it starts a daemon
thread and returns `None`.  The `blocking` flag only waits on the scheduled
task and is omitted. -/
def start_telegram_bot_model (tokenOverride cfgToken : Option String)
    (loopRunning useWebhook : Bool) (webhookUrl : Option String) :
    Option Unit × List LaunchEv :=
  if pyTruthy (orTok tokenOverride cfgToken) = false then
    (none, [LaunchEv.logDisabled])
  else if loopRunning then
    if useWebhook && pyTruthy webhookUrl then
      (some (), [LaunchEv.probeScheduler, LaunchEv.scheduleWebhookTask])
    else
      (some (), [LaunchEv.probeScheduler, LaunchEv.schedulePollingTask])
  else
    (none, [LaunchEv.probeScheduler, LaunchEv.startThread])

/-- `start_slack_bot` (slack_bot.py lines 59-140) as result plus action trace:
both tokens are required; the missing-token check short-circuits before the
scheduler probe. -/
def start_slack_bot_model (botOverride appOverride cfgBot cfgApp : Option String)
    (loopRunning : Bool) : Option Unit × List LaunchEv :=
  if pyTruthy (orTok botOverride cfgBot) = false ||
      pyTruthy (orTok appOverride cfgApp) = false then
    (none, [LaunchEv.logDisabled])
  else if loopRunning then
    (some (), [LaunchEv.probeScheduler, LaunchEv.schedulePollingTask])
  else
    (none, [LaunchEv.probeScheduler, LaunchEv.startThread])

/-- A backend whose AI call always fails (for the C1 witness). -/
def envAiFail : BackendEnv :=
  ⟨fun _ => Except.ok none, fun _ => Except.ok (), fun _ _ _ _ _ _ => Except.error "net"⟩

/-- A backend whose user lookup raises while the AI call would succeed (for
the C2 counterexample). -/
def envLookupFail : BackendEnv :=
  ⟨fun _ => Except.error "db down", fun _ => Except.ok (),
   fun _ _ _ _ _ _ => Except.ok ("hi".data)⟩

/-- A backend where the user is absent and creation fails (for the C2
witness). -/
def envCreateFail : BackendEnv :=
  ⟨fun _ => Except.ok none, fun _ => Except.error "down",
   fun _ _ _ _ _ _ => Except.ok ("yo".data)⟩

/-- A healthy backend returning a long reply (for the C7 counterexample). -/
def envLongReply : BackendEnv :=
  ⟨fun _ => Except.ok (some ()), fun _ => Except.ok (),
   fun _ _ _ _ _ _ => Except.ok (List.replicate 4001 'a')⟩

/-- A healthy backend returning a short reply (for the C6 and C7 witnesses). -/
def envShortReply : BackendEnv :=
  ⟨fun _ => Except.ok (some ()), fun _ => Except.ok (),
   fun _ _ _ _ _ _ => Except.ok ("ok".data)⟩

/-- A backend that succeeds with an empty reply string (for the C9
counterexample). -/
def envEmptyReply : BackendEnv :=
  ⟨fun _ => Except.ok (some ()), fun _ => Except.ok (),
   fun _ _ _ _ _ _ => Except.ok []⟩

theorem dropWhile_len_le (p : Char → Bool) (l : List Char) :
    (l.dropWhile p).length ≤ l.length := by
  induction l with
  | nil => simp
  | cons a t ih =>
    simp only [List.dropWhile_cons]
    split
    · exact Nat.le_succ_of_le ih
    · exact Nat.le_refl _

theorem isPrefixOf_nn_iff (l : List Char) :
    List.isPrefixOf ['\n', '\n'] l = true ↔ ∃ t, l = '\n' :: '\n' :: t := by
  cases l with
  | nil => simp [List.isPrefixOf]
  | cons a l' =>
    cases l' with
    | nil => simp [List.isPrefixOf]
    | cons b t =>
      constructor
      · intro h
        simp [List.isPrefixOf, Bool.and_eq_true, beq_iff_eq] at h
        exact ⟨t, by rw [← h.1, ← h.2]⟩
      · rintro ⟨t', ht'⟩
        cases ht'
        simp [List.isPrefixOf]

theorem isPrefixOf_n_iff (l : List Char) :
    List.isPrefixOf ['\n'] l = true ↔ ∃ t, l = '\n' :: t := by
  cases l with
  | nil => simp [List.isPrefixOf]
  | cons a l' =>
    constructor
    · intro h
      simp [List.isPrefixOf, beq_iff_eq] at h
      exact ⟨l', by rw [h]⟩
    · rintro ⟨t', ht'⟩
      cases ht'
      simp [List.isPrefixOf]

theorem rfindFrom_le {s pat : List Char} :
    ∀ {k i : Nat}, rfindFrom s pat k = some i → i ≤ k := by
  intro k
  induction k with
  | zero =>
    intro i h
    simp only [rfindFrom] at h
    split at h
    · exact (Option.some_inj.mp h) ▸ Nat.le_refl 0
    · exact absurd h (by simp)
  | succ k ih =>
    intro i h
    simp only [rfindFrom] at h
    split at h
    · exact (Option.some_inj.mp h) ▸ Nat.le_refl (k + 1)
    · exact Nat.le_succ_of_le (ih h)

theorem rfindFrom_occ {s pat : List Char} :
    ∀ {k i : Nat}, rfindFrom s pat k = some i →
      List.isPrefixOf pat (s.drop i) = true := by
  intro k
  induction k with
  | zero =>
    intro i h
    simp only [rfindFrom] at h
    split at h
    · cases Option.some_inj.mp h
      simpa using (by assumption : List.isPrefixOf pat s = true)
    · exact absurd h (by simp)
  | succ k ih =>
    intro i h
    simp only [rfindFrom] at h
    split at h
    · cases Option.some_inj.mp h
      assumption
    · exact ih h

theorem rfindFrom_maximal {s pat : List Char} :
    ∀ {k i : Nat}, rfindFrom s pat k = some i →
      ∀ j, i < j → j ≤ k → List.isPrefixOf pat (s.drop j) = false := by
  intro k
  induction k with
  | zero =>
    intro i h j hij hjk
    simp only [rfindFrom] at h
    split at h
    · cases Option.some_inj.mp h
      omega
    · exact absurd h (by simp)
  | succ k ih =>
    intro i h j hij hjk
    simp only [rfindFrom] at h
    split at h
    · cases Option.some_inj.mp h
      omega
    · rename_i hcond
      rcases Nat.lt_or_ge j (k + 1) with hj | hj
      · exact ih h j hij (Nat.lt_succ_iff.mp hj)
      · have hjeq : j = k + 1 := Nat.le_antisymm hjk hj
        subst hjeq
        cases hb : List.isPrefixOf pat (s.drop (k + 1)) with
        | false => rfl
        | true => exact absurd hb hcond

theorem rfindFrom_eq_none {s pat : List Char} :
    ∀ {k : Nat}, (∀ j, j ≤ k → List.isPrefixOf pat (s.drop j) = false) →
      rfindFrom s pat k = none := by
  intro k
  induction k with
  | zero =>
    intro h
    have h0 := h 0 (Nat.le_refl 0)
    simp only [rfindFrom]
    simp only [List.drop_zero] at h0
    simp [h0]
  | succ k ih =>
    intro h
    have hk := h (k + 1) (Nat.le_refl (k + 1))
    simp only [rfindFrom, hk]
    simp only [Bool.false_eq_true, if_false]
    exact ih fun j hj => h j (Nat.le_succ_of_le hj)

theorem rfindFrom_eq_some {s pat : List Char} :
    ∀ {k i : Nat}, i ≤ k → List.isPrefixOf pat (s.drop i) = true →
      (∀ j, i < j → j ≤ k → List.isPrefixOf pat (s.drop j) = false) →
      rfindFrom s pat k = some i := by
  intro k
  induction k with
  | zero =>
    intro i hik hocc _
    have hi0 : i = 0 := Nat.le_zero.mp hik
    subst hi0
    simp only [List.drop_zero] at hocc
    simp [rfindFrom, hocc]
  | succ k ih =>
    intro i hik hocc hmax
    rcases Nat.lt_or_ge i (k + 1) with hi | hi
    · have hfail := hmax (k + 1) hi (Nat.le_refl (k + 1))
      simp only [rfindFrom, hfail]
      simp only [Bool.false_eq_true, if_false]
      exact ih (Nat.lt_succ_iff.mp hi) hocc
        fun j hij hjk => hmax j hij (Nat.le_succ_of_le hjk)
    · have hieq : i = k + 1 := Nat.le_antisymm hik hi
      subst hieq
      simp [rfindFrom, hocc]

theorem rfind_le {s pat : List Char} {i : Nat} (h : rfind s pat = some i) :
    i ≤ s.length :=
  rfindFrom_le h

theorem rfind_sandwich_nn (u v : List Char)
    (hv : ∀ c ∈ v, c ≠ '\n') :
    rfind (u ++ '\n' :: '\n' :: v) ['\n', '\n'] = some u.length := by
  apply rfindFrom_eq_some
  · simp
  · rw [List.drop_append_eq_append_drop, List.drop_of_length_le (Nat.le_refl u.length)]
    simp [isPrefixOf_nn_iff]
  · intro j hij hjk
    rw [List.drop_append_eq_append_drop,
      List.drop_of_length_le (Nat.le_of_lt hij), List.nil_append]
    by_contra hcon
    rw [Bool.not_eq_false, isPrefixOf_nn_iff] at hcon
    obtain ⟨t, ht⟩ := hcon
    rcases Nat.lt_or_ge (j - u.length) 2 with hd | hd
    · have hj1 : j - u.length = 1 := by omega
      rw [hj1] at ht
      simp only [List.drop_succ_cons, List.drop_zero] at ht
      have hvt : v = '\n' :: t := (List.cons.injEq _ _ _ _).mp ht |>.2
      exact hv '\n' (by rw [hvt]; exact List.mem_cons_self '\n' t) rfl
    · have ht2 : List.drop (j - u.length) ('\n' :: '\n' :: v) =
          List.drop (j - u.length - 2) v := by
        have hje : j - u.length = (j - u.length - 2) + 2 := by omega
        rw [hje]
        rfl
      rw [ht2] at ht
      have hmem : '\n' ∈ v :=
        List.mem_of_mem_drop (by rw [ht]; exact List.mem_cons_self '\n' ('\n' :: t))
      exact hv '\n' hmem rfl

theorem rfind_nn_none (s : List Char) (hs : ∀ c ∈ s, c ≠ '\n') :
    rfind s ['\n', '\n'] = none := by
  apply rfindFrom_eq_none
  intro j _
  by_contra hcon
  rw [Bool.not_eq_false, isPrefixOf_nn_iff] at hcon
  obtain ⟨t, ht⟩ := hcon
  exact hs '\n' (List.mem_of_mem_drop (ht ▸ List.mem_cons_self '\n' ('\n' :: t))) rfl

theorem rfind_n_none (s : List Char) (hs : ∀ c ∈ s, c ≠ '\n') :
    rfind s ['\n'] = none := by
  apply rfindFrom_eq_none
  intro j _
  by_contra hcon
  rw [Bool.not_eq_false, isPrefixOf_n_iff] at hcon
  obtain ⟨t, ht⟩ := hcon
  exact hs '\n' (List.mem_of_mem_drop (ht ▸ List.mem_cons_self '\n' t)) rfl

theorem bestSplit_le (window : List Char) (maxLen : Nat)
    (h : window.length ≤ maxLen) : bestSplit window maxLen ≤ maxLen := by
  unfold bestSplit
  cases h2 : rfind window ['\n', '\n'] with
  | some i => exact Nat.le_trans (rfind_le h2) h
  | none =>
    cases h1 : rfind window ['\n'] with
    | some i => exact Nat.le_trans (rfind_le h1) h
    | none => exact Nat.le_refl maxLen

theorem bestSplit_zero_head (window : List Char) (maxLen : Nat)
    (hm : 1 ≤ maxLen) (h0 : bestSplit window maxLen = 0) :
    ∃ t, window = '\n' :: t := by
  unfold bestSplit at h0
  cases h2 : rfind window ['\n', '\n'] with
  | some i =>
    rw [h2] at h0
    cases h0
    have := rfindFrom_occ h2
    rw [List.drop_zero, isPrefixOf_nn_iff] at this
    obtain ⟨t, ht⟩ := this
    exact ⟨'\n' :: t, ht⟩
  | none =>
    rw [h2] at h0
    cases h1 : rfind window ['\n'] with
    | some i =>
      rw [h1] at h0
      cases h0
      have := rfindFrom_occ h1
      rw [List.drop_zero, isPrefixOf_n_iff] at this
      exact this
    | none =>
      rw [h1] at h0
      have hml : maxLen = 0 := h0
      omega

theorem split_step_decrease (maxLen : Nat) (r : List Char)
    (hm : 1 ≤ maxLen) (hr : maxLen < r.length) :
    ((r.drop (bestSplit (r.take maxLen) maxLen)).dropWhile
      (fun c => c == '\n')).length < r.length := by
  rcases Nat.eq_zero_or_pos (bestSplit (r.take maxLen) maxLen) with h0 | hpos
  · obtain ⟨t, ht⟩ := bestSplit_zero_head (r.take maxLen) maxLen hm h0
    cases r with
    | nil => simp at hr
    | cons a r' =>
      have ha : a = '\n' := by
        cases maxLen with
        | zero => omega
        | succ m =>
          simp only [List.take_succ_cons] at ht
          exact (List.cons.injEq a _ '\n' t).mp ht |>.1
      subst ha
      rw [h0, List.drop_zero]
      simp only [List.dropWhile_cons]
      simp only [beq_self_eq_true, if_true]
      calc (r'.dropWhile (fun c => c == '\n')).length
          ≤ r'.length := dropWhile_len_le _ _
        _ < ('\n' :: r').length := by simp
  · calc ((r.drop (bestSplit (r.take maxLen) maxLen)).dropWhile
          (fun c => c == '\n')).length
        ≤ (r.drop (bestSplit (r.take maxLen) maxLen)).length :=
          dropWhile_len_le _ _
      _ = r.length - bestSplit (r.take maxLen) maxLen := List.length_drop _ _
      _ < r.length := by omega

theorem splitSteps_nil (maxLen fuel : Nat) : splitSteps maxLen (fuel + 1) [] = [] := rfl

theorem splitSteps_small (maxLen fuel : Nat) (r : List Char)
    (hne : r ≠ []) (hle : r.length ≤ maxLen) :
    splitSteps maxLen (fuel + 1) r = [r] := by
  simp only [splitSteps]
  rw [if_neg (by simp [hne]), if_pos hle]

theorem splitSteps_step (maxLen fuel : Nat) (r : List Char)
    (hgt : maxLen < r.length) :
    splitSteps maxLen (fuel + 1) r =
      r.take (bestSplit (r.take maxLen) maxLen) ::
        splitSteps maxLen fuel
          ((r.drop (bestSplit (r.take maxLen) maxLen)).dropWhile (fun c => c == '\n')) := by
  have hne : r ≠ [] := by
    intro h
    rw [h] at hgt
    simp at hgt
  simp only [splitSteps]
  rw [if_neg (by simp [hne]), if_neg (by omega)]

theorem mem_takeWhile_nl {l : List Char} {x : Char}
    (h : x ∈ l.takeWhile (fun c => c == '\n')) : x = '\n' := by
  induction l with
  | nil => simp [List.takeWhile] at h
  | cons a t ih =>
    rw [List.takeWhile_cons] at h
    by_cases ha : (a == '\n') = true
    · rw [if_pos ha] at h
      rcases List.mem_cons.mp h with h1 | h2
      · rw [h1]
        exact beq_iff_eq.mp ha
      · exact ih h2
    · rw [if_neg ha] at h
      simp at h

theorem dropWhile_nl_eq_self (l : List Char) (h : ∀ c ∈ l, c ≠ '\n') :
    l.dropWhile (fun c => c == '\n') = l := by
  cases l with
  | nil => rfl
  | cons a t =>
    have ha : a ≠ '\n' := h a (List.mem_cons_self a t)
    simp [List.dropWhile_cons, ha]

theorem splitSteps_ne_nil (maxLen fuel : Nat) (r : List Char)
    (hne : r ≠ []) : splitSteps maxLen (fuel + 1) r ≠ [] := by
  by_cases hle : r.length ≤ maxLen
  · rw [splitSteps_small maxLen fuel r hne hle]
    simp
  · rw [splitSteps_step maxLen fuel r (by omega)]
    simp

theorem splitSteps_chunks_le (maxLen : Nat) (hm : 1 ≤ maxLen) :
    ∀ fuel r, r.length < fuel →
      ∀ c ∈ splitSteps maxLen fuel r, c.length ≤ maxLen := by
  intro fuel
  induction fuel with
  | zero =>
    intro r hr
    exact absurd hr (Nat.not_lt_zero _)
  | succ fuel ih =>
    intro r hr c hc
    by_cases hemp : r = []
    · subst hemp
      rw [splitSteps_nil] at hc
      simp at hc
    · by_cases hle : r.length ≤ maxLen
      · rw [splitSteps_small maxLen fuel r hemp hle] at hc
        rcases List.mem_singleton.mp hc with h1
        rw [h1]
        exact hle
      · rw [splitSteps_step maxLen fuel r (by omega)] at hc
        rcases List.mem_cons.mp hc with h1 | h2
        · rw [h1, List.length_take]
          have hb := bestSplit_le (r.take maxLen) maxLen
            (by rw [List.length_take]; omega)
          omega
        · have hdec := split_step_decrease maxLen r hm (by omega)
          exact ih ((r.drop (bestSplit (r.take maxLen) maxLen)).dropWhile
            (fun c => c == '\n')) (by omega) c h2

theorem splitSteps_reconstructs (maxLen : Nat) (hm : 1 ≤ maxLen) :
    ∀ fuel r, r.length < fuel → Reconstructs (splitSteps maxLen fuel r) r := by
  intro fuel
  induction fuel with
  | zero =>
    intro r hr
    exact absurd hr (Nat.not_lt_zero _)
  | succ fuel ih =>
    intro r hr
    by_cases hemp : r = []
    · subst hemp
      rw [splitSteps_nil]
      exact Reconstructs.nil
    · by_cases hle : r.length ≤ maxLen
      · rw [splitSteps_small maxLen fuel r hemp hle]
        have hc := @Reconstructs.cons r [] [] [] (by simp) Reconstructs.nil
        simpa using hc
      · rw [splitSteps_step maxLen fuel r (by omega)]
        have hdec := split_step_decrease maxLen r hm (by omega)
        have hrec := ih ((r.drop (bestSplit (r.take maxLen) maxLen)).dropWhile
          (fun c => c == '\n')) (by omega)
        have hw : ∀ x ∈ (r.drop (bestSplit (r.take maxLen) maxLen)).takeWhile
            (fun c => c == '\n'), x = '\n' := fun x hx => mem_takeWhile_nl hx
        have hcons := @Reconstructs.cons
          (r.take (bestSplit (r.take maxLen) maxLen))
          ((r.drop (bestSplit (r.take maxLen) maxLen)).takeWhile (fun c => c == '\n'))
          (splitSteps maxLen fuel
            ((r.drop (bestSplit (r.take maxLen) maxLen)).dropWhile (fun c => c == '\n')))
          ((r.drop (bestSplit (r.take maxLen) maxLen)).dropWhile (fun c => c == '\n'))
          hw hrec
        have hdecomp : r.take (bestSplit (r.take maxLen) maxLen) ++
            ((r.drop (bestSplit (r.take maxLen) maxLen)).takeWhile (fun c => c == '\n') ++
             (r.drop (bestSplit (r.take maxLen) maxLen)).dropWhile (fun c => c == '\n')) = r := by
          rw [List.takeWhile_append_dropWhile, List.take_append_drop]
        rw [← List.append_assoc] at hdecomp
        rw [hdecomp] at hcons
        exact hcons

theorem splitSteps_count_nonl (maxLen : Nat) (hm : 1 ≤ maxLen) :
    ∀ fuel r, r.length < fuel → r ≠ [] → (∀ c ∈ r, c ≠ '\n') →
      (splitSteps maxLen fuel r).length = (r.length + maxLen - 1) / maxLen := by
  intro fuel
  induction fuel with
  | zero =>
    intro r hr
    exact absurd hr (Nat.not_lt_zero _)
  | succ fuel ih =>
    intro r hr hne hnl
    by_cases hle : r.length ≤ maxLen
    · have hr1 : 0 < r.length := List.length_pos.mpr hne
      rw [splitSteps_small maxLen fuel r hne hle]
      simp only [List.length_singleton]
      symm
      apply Nat.div_eq_of_lt_le
      · omega
      · omega
    · have hwin_nl : ∀ c ∈ r.take maxLen, c ≠ '\n' :=
        fun c hc => hnl c (List.mem_of_mem_take hc)
      have hidx : bestSplit (r.take maxLen) maxLen = maxLen := by
        unfold bestSplit
        rw [rfind_nn_none _ hwin_nl, rfind_n_none _ hwin_nl]
      have hdrop_nl : ∀ c ∈ r.drop maxLen, c ≠ '\n' :=
        fun c hc => hnl c (List.mem_of_mem_drop hc)
      have hds : (r.drop maxLen).dropWhile (fun c => c == '\n') = r.drop maxLen :=
        dropWhile_nl_eq_self _ hdrop_nl
      have heq : splitSteps maxLen (fuel + 1) r =
          r.take maxLen :: splitSteps maxLen fuel (r.drop maxLen) := by
        rw [splitSteps_step maxLen fuel r (by omega), hidx, hds]
      rw [heq]
      have hlen2 : (r.drop maxLen).length = r.length - maxLen := List.length_drop _ _
      have hrec := ih (r.drop maxLen) (by omega)
        (by
          intro hcon
          have := congrArg List.length hcon
          rw [hlen2] at this
          simp at this
          omega)
        hdrop_nl
      simp only [List.length_cons, hrec, hlen2]
      have harith : r.length + maxLen - 1 = (r.length - maxLen + maxLen - 1) + maxLen := by
        omega
      rw [harith, Nat.add_div_right _ (by omega)]

theorem window_of_para (maxLen : Nat) (u rest : List Char)
    (hfit : u.length + 2 ≤ maxLen) :
    (u ++ '\n' :: '\n' :: rest).take maxLen =
      u ++ '\n' :: '\n' :: rest.take (maxLen - (u.length + 2)) := by
  rw [List.take_append_eq_append_take,
    List.take_of_length_le (by omega : u.length ≤ maxLen)]
  congr 1
  have h2 : maxLen - u.length = (maxLen - (u.length + 2)) + 1 + 1 := by omega
  rw [h2, List.take_succ_cons, List.take_succ_cons]

theorem splitSteps_cons_para (maxLen fuel : Nat) (u rest : List Char)
    (hw : ∀ c ∈ rest.take (maxLen - (u.length + 2)), c ≠ '\n')
    (hfit : u.length + 2 ≤ maxLen)
    (hover : maxLen < u.length + 2 + rest.length)
    (hrest : rest.dropWhile (fun c => c == '\n') = rest) :
    splitSteps maxLen (fuel + 1) (u ++ '\n' :: '\n' :: rest) =
      u :: splitSteps maxLen fuel rest := by
  have hlen : (u ++ '\n' :: '\n' :: rest).length = u.length + 2 + rest.length := by
    simp
    omega
  rw [splitSteps_step maxLen fuel _ (by omega)]
  rw [window_of_para maxLen u rest hfit]
  have hrf : rfind (u ++ '\n' :: '\n' :: rest.take (maxLen - (u.length + 2)))
      ['\n', '\n'] = some u.length := rfind_sandwich_nn u _ hw
  have hbs : bestSplit (u ++ '\n' :: '\n' :: rest.take (maxLen - (u.length + 2)))
      maxLen = u.length := by
    unfold bestSplit
    rw [hrf]
  rw [hbs, List.take_left, List.drop_left]
  simp only [List.dropWhile_cons, beq_self_eq_true, if_true, hrest]

theorem dropWhile_nl_append (l rest : List Char) (hne : l ≠ [])
    (hl : ∀ c ∈ l, c ≠ '\n') :
    (l ++ rest).dropWhile (fun c => c == '\n') = l ++ rest := by
  cases l with
  | nil => exact absurd rfl hne
  | cons a t =>
    have ha : a ≠ '\n' := hl a (List.mem_cons_self a t)
    simp [List.dropWhile_cons, ha]

/-- C3: for every reply string and positive limit, a string within the limit
is returned as the single chunk equal to the input; an over-length string is
split into a non-empty ordered sequence of chunks, each of length at most the
limit, and concatenating the chunks while restoring the newlines stripped at
each split boundary reconstructs the original content. -/
theorem segmenter_contract (text : List Char) (limit : Nat) (hm : 1 ≤ limit) :
    (text.length ≤ limit → splitMessage text limit = [text]) ∧
    (limit < text.length →
      splitMessage text limit ≠ [] ∧
      (∀ c ∈ splitMessage text limit, c.length ≤ limit) ∧
      Reconstructs (splitMessage text limit) text) := by
  constructor
  · intro hle
    unfold splitMessage
    rw [if_pos hle]
  · intro hlt
    unfold splitMessage
    rw [if_neg (by omega)]
    refine ⟨?_, ?_, ?_⟩
    · exact splitSteps_ne_nil limit text.length text (List.length_pos.mp (by omega))
    · exact splitSteps_chunks_le limit hm (text.length + 1) text (by omega)
    · exact splitSteps_reconstructs limit hm (text.length + 1) text (by omega)

/-- Witness for C3 at the concrete over-length input "aaaaaaa" with limit 3. -/
theorem segmenter_contract_witness :
    splitMessage ("aaaaaaa".data) 3 ≠ [] ∧
    (∀ c ∈ splitMessage ("aaaaaaa".data) 3, c.length ≤ 3) ∧
    Reconstructs (splitMessage ("aaaaaaa".data) 3) ("aaaaaaa".data) :=
  (segmenter_contract ("aaaaaaa".data) 3 (by decide)).2 (by decide)

/-- C5: for every reply string with no newline character and longer than the
positive limit, segmentation terminates (the fuelled loop completes within
its budget) and produces exactly the ceiling of length / limit chunks, each
of length at most the limit. -/
theorem segmenter_nonl_count (text : List Char) (limit : Nat)
    (hm : 1 ≤ limit) (hlen : limit < text.length)
    (hnl : ∀ c ∈ text, c ≠ '\n') :
    (splitMessage text limit).length = (text.length + limit - 1) / limit ∧
    ∀ c ∈ splitMessage text limit, c.length ≤ limit := by
  unfold splitMessage
  rw [if_neg (by omega)]
  constructor
  · exact splitSteps_count_nonl limit hm (text.length + 1) text (by omega)
      (List.length_pos.mp (by omega)) hnl
  · exact splitSteps_chunks_le limit hm (text.length + 1) text (by omega)

/-- Witness for C5 at the newline-free input "aaaaaaa" with limit 3:
ceil(7 / 3) = 3 chunks. -/
theorem segmenter_nonl_count_witness :
    (splitMessage ("aaaaaaa".data) 3).length = (("aaaaaaa".data).length + 3 - 1) / 3 ∧
    ∀ c ∈ splitMessage ("aaaaaaa".data) 3, c.length ≤ 3 :=
  segmenter_nonl_count ("aaaaaaa".data) 3 (by decide) (by decide) (by decide)

/-- C4: the 9000-character scenario: any input consisting of 3990 non-newline
characters, a paragraph break at position 3990, 3998 non-newline characters,
a paragraph break at position 7990, and 1008 non-newline characters, split
with limit 4000, yields exactly the 3 chunks delimited by those breaks: the
segmenter picks the last paragraph break inside each 4000-character window. -/
theorem segmenter_scenario_9000 (A B C : List Char)
    (hA : A.length = 3990) (hB : B.length = 3998) (hC : C.length = 1008)
    (hBn : ∀ c ∈ B, c ≠ '\n') (hCn : ∀ c ∈ C, c ≠ '\n') :
    (A ++ '\n' :: '\n' :: (B ++ '\n' :: '\n' :: C)).length = 9000 ∧
    splitMessage (A ++ '\n' :: '\n' :: (B ++ '\n' :: '\n' :: C)) 4000 = [A, B, C] := by
  have hBne : B ≠ [] := by
    intro h
    rw [h] at hB
    simp at hB
  have hCne : C ≠ [] := by
    intro h
    rw [h] at hC
    simp at hC
  have hlen : (A ++ '\n' :: '\n' :: (B ++ '\n' :: '\n' :: C)).length = 9000 := by
    simp [hA, hB, hC]
  refine ⟨hlen, ?_⟩
  unfold splitMessage
  rw [if_neg (by rw [hlen]; omega)]
  rw [hlen]
  rw [splitSteps_cons_para 4000 9000 A (B ++ '\n' :: '\n' :: C)
    (by
      intro c hc
      rw [hA] at hc
      rw [show (4000 - (3990 + 2)) = 8 from rfl] at hc
      rw [List.take_append_eq_append_take, hB] at hc
      rw [show (8 - 3998 : Nat) = 0 from rfl, List.take_zero, List.append_nil] at hc
      exact hBn c (List.mem_of_mem_take hc)
    )
    (by omega)
    (by simp [hB, hC])
    (dropWhile_nl_append B ('\n' :: '\n' :: C) hBne hBn)]
  rw [show (9000 : Nat) = 8999 + 1 from rfl]
  rw [splitSteps_cons_para 4000 8999 B C
    (by
      intro c hc
      rw [hB] at hc
      rw [show (4000 - (3998 + 2)) = 0 from rfl] at hc
      simp at hc)
    (by omega)
    (by omega)
    (dropWhile_nl_eq_self C hCn)]
  rw [show (8999 : Nat) = 8998 + 1 from rfl]
  rw [splitSteps_small 4000 8998 C hCne (by omega)]

/-- Witness for C4 at the concrete input made of replicated letters. -/
theorem segmenter_scenario_9000_witness :
    (List.replicate 3990 'a' ++ '\n' :: '\n' ::
      (List.replicate 3998 'b' ++ '\n' :: '\n' :: List.replicate 1008 'c')).length = 9000 ∧
    splitMessage (List.replicate 3990 'a' ++ '\n' :: '\n' ::
      (List.replicate 3998 'b' ++ '\n' :: '\n' :: List.replicate 1008 'c')) 4000 =
      [List.replicate 3990 'a', List.replicate 3998 'b', List.replicate 1008 'c'] :=
  segmenter_scenario_9000 (List.replicate 3990 'a') (List.replicate 3998 'b')
    (List.replicate 1008 'c') (by rw [List.length_replicate])
    (by rw [List.length_replicate]) (by rw [List.length_replicate])
    (fun c hc => by rw [List.eq_of_mem_replicate hc]; decide)
    (fun c hc => by rw [List.eq_of_mem_replicate hc]; decide)

/-- C10: there is an input longer than the limit, beginning with a paragraph
break followed by more than limit non-newline characters, for which the
segmenter emits the empty string as its first chunk, so not every emitted
chunk is non-empty. -/
theorem segmenter_empty_chunk :
    ∃ t : List Char, 4000 < t.length ∧
      (splitMessage t 4000).head? = some [] ∧ [] ∈ splitMessage t 4000 := by
  have hlen : ('\n' :: '\n' :: List.replicate 3999 'x').length = 4001 := by
    rw [List.length_cons, List.length_cons, List.length_replicate]
  have heq : splitMessage ('\n' :: '\n' :: List.replicate 3999 'x') 4000 =
      [] :: splitSteps 4000 ('\n' :: '\n' :: List.replicate 3999 'x').length
        (List.replicate 3999 'x') := by
    unfold splitMessage
    rw [if_neg (by rw [hlen]; omega)]
    have hstep := splitSteps_cons_para 4000
      ('\n' :: '\n' :: List.replicate 3999 'x').length [] (List.replicate 3999 'x')
      (fun c hc => by
        rw [List.eq_of_mem_replicate (List.mem_of_mem_take hc)]
        decide)
      (by rw [List.length_nil]; omega)
      (by rw [List.length_nil, List.length_replicate]; omega)
      (dropWhile_nl_eq_self _ (fun c hc => by rw [List.eq_of_mem_replicate hc]; decide))
    rw [List.nil_append] at hstep
    exact hstep
  refine ⟨'\n' :: '\n' :: List.replicate 3999 'x', by rw [hlen]; omega, ?_, ?_⟩
  · rw [heq]
    rfl
  · rw [heq]
    exact List.mem_cons_self _ _

theorem slack_eq_telegram (env : BackendEnv) (cookies : String)
    (text : List Char) (user_id : String) :
    slack_generate_answer env cookies text user_id =
      telegram_generate_answer env cookies text ("slack_" ++ user_id) := rfl

theorem telegram_generate_answer_cases (env : BackendEnv) (cookies : String)
    (text : List Char) (username : String) :
    telegram_generate_answer env cookies text username = fallbackText ∨
    ∃ u2 r, env.generate_response text u2 true true false cookies = Except.ok r ∧
      telegram_generate_answer env cookies text username = r := by
  unfold telegram_generate_answer
  cases hl : env.get_user_by_username username with
  | error e => exact Or.inl rfl
  | ok user =>
    cases user with
    | some uu =>
      cases hg : env.generate_response text username true true false cookies with
      | ok r => exact Or.inr ⟨username, r, hg, by simp [hg]⟩
      | error e => exact Or.inl (by simp [hg])
    | none =>
      cases hc : env.create_user username with
      | ok u =>
        cases hg : env.generate_response text username true true false cookies with
        | ok r => exact Or.inr ⟨username, r, hg, by simp [hc, hg]⟩
        | error e => exact Or.inl (by simp [hc, hg])
      | error e2 =>
        cases hg : env.generate_response text "admin" true true false cookies with
        | ok r => exact Or.inr ⟨"admin", r, hg, by simp [hc, hg]⟩
        | error e => exact Or.inl (by simp [hc, hg])

/-- C1: for every inbound text and identity, if every AI backend call fails
with any error, then both orchestrators return exactly the apology string;
the embedding is a total function, so no exception escapes its boundary. -/
theorem orchestrator_fallback_on_ai_failure (env : BackendEnv) (cookies : String)
    (text : List Char) (username user_id : String)
    (hfail : ∀ m u hh s p c, ∃ e, env.generate_response m u hh s p c = Except.error e) :
    telegram_generate_answer env cookies text username = fallbackText ∧
    slack_generate_answer env cookies text user_id = fallbackText := by
  have htg : ∀ uname, telegram_generate_answer env cookies text uname = fallbackText := by
    intro uname
    rcases telegram_generate_answer_cases env cookies text uname with h | ⟨u2, r, hg, h⟩
    · exact h
    · obtain ⟨e, he⟩ := hfail text u2 true true false cookies
      rw [he] at hg
      simp at hg
  exact ⟨htg username, (slack_eq_telegram env cookies text user_id).trans
    (htg ("slack_" ++ user_id))⟩

/-- Witness for C1: with a backend whose AI call always raises, both
orchestrators answer the apology string. -/
theorem orchestrator_fallback_on_ai_failure_witness :
    telegram_generate_answer envAiFail "cookies.json" ("hi".data) "tg_1" = fallbackText ∧
    slack_generate_answer envAiFail "cookies.json" ("hi".data) "U1" = fallbackText :=
  orchestrator_fallback_on_ai_failure envAiFail "cookies.json" ("hi".data) "tg_1" "U1"
    (fun _ _ _ _ _ _ => ⟨"net", rfl⟩)

/-- C2 counterexample: with a store whose lookup raises and an AI backend
that would answer "hi" under any identity (admin included), the orchestrator
returns the apology string, which differs from the AI reply: a lookup failure
is caught by the outer handler and is not recovered through the admin
fallback, contradicting the claim that the reply is then computed via the AI
backend under the fallback identity. -/
theorem resolver_lookup_failure_counterexample :
    telegram_generate_answer envLookupFail "cookies.json" ("hello".data) "tg_1" =
      fallbackText ∧
    envLookupFail.generate_response ("hello".data) "admin" true true false "cookies.json" =
      Except.ok ("hi".data) ∧
    fallbackText ≠ "hi".data := by
  refine ⟨rfl, rfl, ?_⟩
  decide

/-- C2 amended: if user creation fails (after a lookup that found no user),
the orchestrator falls back to the shared admin identity and the reply is
computed via the AI backend under "admin"; if the lookup itself fails, the
orchestrator instead returns the apology string; in both cases no error
reaches the caller. -/
theorem resolver_store_failure (env : BackendEnv) (cookies : String)
    (text : List Char) (username user_id : String) :
    ((∃ e, env.get_user_by_username username = Except.error e) →
      telegram_generate_answer env cookies text username = fallbackText) ∧
    (env.get_user_by_username username = Except.ok none →
     (∃ e, env.create_user username = Except.error e) →
      telegram_generate_answer env cookies text username =
        (match env.generate_response text "admin" true true false cookies with
         | Except.ok r => r
         | Except.error _ => fallbackText)) ∧
    (env.get_user_by_username ("slack_" ++ user_id) = Except.ok none →
     (∃ e, env.create_user ("slack_" ++ user_id) = Except.error e) →
      slack_generate_answer env cookies text user_id =
        (match env.generate_response text "admin" true true false cookies with
         | Except.ok r => r
         | Except.error _ => fallbackText)) := by
  have hadm : ∀ uname, env.get_user_by_username uname = Except.ok none →
      (∃ e, env.create_user uname = Except.error e) →
      telegram_generate_answer env cookies text uname =
        (match env.generate_response text "admin" true true false cookies with
         | Except.ok r => r
         | Except.error _ => fallbackText) := by
    intro uname hl he2
    obtain ⟨e, he⟩ := he2
    unfold telegram_generate_answer
    rw [hl]
    simp [he]
  refine ⟨?_, hadm username, ?_⟩
  · intro hle
    obtain ⟨e, he⟩ := hle
    unfold telegram_generate_answer
    rw [he]
  · intro hl he2
    exact (slack_eq_telegram env cookies text user_id).trans
      (hadm ("slack_" ++ user_id) hl he2)

/-- Witness for C2 amended: a store with lookup finding no user and creation
failing makes the orchestrator answer with the backend reply under admin. -/
theorem resolver_store_failure_witness :
    telegram_generate_answer envCreateFail "cookies.json" ("q".data) "tg_9" =
      (match envCreateFail.generate_response ("q".data) "admin" true true false
          "cookies.json" with
       | Except.ok r => r
       | Except.error _ => fallbackText) :=
  (resolver_store_failure envCreateFail "cookies.json" ("q".data) "tg_9" "U1").2.1
    rfl ⟨"down", rfl⟩

/-- C9 counterexample: with a healthy store and an AI backend that succeeds
with the empty string, both orchestrators return the empty string, so the
reply is not guaranteed non-empty when the backend call succeeds. -/
theorem orchestrator_empty_reply_counterexample :
    telegram_generate_answer envEmptyReply "cookies.json" ("hi".data) "tg_1" = [] ∧
    slack_generate_answer envEmptyReply "cookies.json" ("hi".data) "U1" = [] :=
  ⟨rfl, rfl⟩

/-- C9 amended: the orchestrator returns either the apology string (which is
non-empty) or the string the backend call succeeded with, so the reply is
non-empty whenever the backend never succeeds with an empty string. -/
theorem orchestrator_reply_nonempty (env : BackendEnv) (cookies : String)
    (text : List Char) (username user_id : String)
    (hne : ∀ m u hh s p c r, env.generate_response m u hh s p c = Except.ok r → r ≠ []) :
    telegram_generate_answer env cookies text username ≠ [] ∧
    slack_generate_answer env cookies text user_id ≠ [] := by
  have hfb : fallbackText ≠ [] := by decide
  have htg : ∀ uname, telegram_generate_answer env cookies text uname ≠ [] := by
    intro uname
    rcases telegram_generate_answer_cases env cookies text uname with h | ⟨u2, r, hg, h⟩
    · rw [h]
      exact hfb
    · rw [h]
      exact hne text u2 true true false cookies r hg
  exact ⟨htg username, (slack_eq_telegram env cookies text user_id) ▸
    htg ("slack_" ++ user_id)⟩

/-- Witness for C9 amended: with a backend that always replies "hi", both
orchestrators give a non-empty reply. -/
theorem orchestrator_reply_nonempty_witness :
    telegram_generate_answer envLookupFail "cookies.json" ("hello".data) "tg_1" ≠ [] ∧
    slack_generate_answer envLookupFail "cookies.json" ("hello".data) "U1" ≠ [] :=
  orchestrator_reply_nonempty envLookupFail "cookies.json" ("hello".data) "tg_1" "U1"
    (fun _ _ _ _ _ _ r h => by
      rw [show envLookupFail.generate_response _ _ _ _ _ _ = Except.ok ("hi".data)
        from rfl] at h
      cases h
      decide)

theorem typing_loop_body_cancel (send : Nat → Except String Unit) :
    ∀ n, typing_loop_body send n = Except.error "CancelledError" := by
  intro n
  induction n with
  | zero => rfl
  | succ n ih =>
    simp only [typing_loop_body]
    cases send n <;> exact ih

theorem typing_loop_run_ok (send : Nat → Except String Unit) (cancelAt : Nat) :
    typing_loop_run send cancelAt = Except.ok () := by
  unfold typing_loop_run
  rw [typing_loop_body_cancel]
  simp

theorem handle_message_trace_no_message (env : BackendEnv) (cookies : String)
    (user : Option String) :
    handle_message_trace env cookies ⟨none, user⟩ = [] := rfl

theorem handle_message_trace_no_user (env : BackendEnv) (cookies : String)
    (textOpt : Option (List Char)) :
    handle_message_trace env cookies ⟨some textOpt, none⟩ = [] := rfl

theorem handle_message_trace_some (env : BackendEnv) (cookies : String)
    (textOpt : Option (List Char)) (uid : String) :
    handle_message_trace env cookies ⟨some textOpt, some uid⟩ =
      (if (pyStrip (textOpt.getD [])).isEmpty then []
       else
        AdapterEv.startTyping ::
          AdapterEv.orchestrate (textOpt.getD []) ("tg_" ++ uid) ::
          AdapterEv.cancelTyping ::
          (splitMessage (telegram_generate_answer env cookies (textOpt.getD [])
            ("tg_" ++ uid)) 4000).map AdapterEv.sendChunk) := rfl

/-- C6: for every inbound Telegram message that reaches the orchestrator
(non-empty trace), the trace runs the typing task start, then the
orchestrator call, then exactly one typing-task cancellation, and only then
the chunk sends, regardless of whether the backend succeeds or fails inside
the orchestrator; and the cancelled typing loop always exits normally, so
its cancellation never surfaces as an error. -/
theorem telegram_liveness_protocol (env : BackendEnv) (cookies : String)
    (u : TgUpdate) (h : handle_message_trace env cookies u ≠ []) :
    (∃ text username,
      handle_message_trace env cookies u =
        AdapterEv.startTyping :: AdapterEv.orchestrate text username ::
          AdapterEv.cancelTyping ::
          (splitMessage (telegram_generate_answer env cookies text username) 4000).map
            AdapterEv.sendChunk) ∧
    (handle_message_trace env cookies u).count AdapterEv.cancelTyping = 1 ∧
    (∀ send cancelAt, typing_loop_run send cancelAt = Except.ok ()) := by
  obtain ⟨msg, user⟩ := u
  cases msg with
  | none => exact absurd (handle_message_trace_no_message env cookies user) h
  | some textOpt =>
    cases user with
    | none => exact absurd (handle_message_trace_no_user env cookies textOpt) h
    | some uid =>
      by_cases hguard : (pyStrip (textOpt.getD [])).isEmpty = true
      · exact absurd ((handle_message_trace_some env cookies textOpt uid).trans
          (if_pos hguard)) h
      · have htr : handle_message_trace env cookies ⟨some textOpt, some uid⟩ =
            AdapterEv.startTyping ::
              AdapterEv.orchestrate (textOpt.getD []) ("tg_" ++ uid) ::
              AdapterEv.cancelTyping ::
              (splitMessage (telegram_generate_answer env cookies (textOpt.getD [])
                ("tg_" ++ uid)) 4000).map AdapterEv.sendChunk :=
          (handle_message_trace_some env cookies textOpt uid).trans (if_neg hguard)
        refine ⟨⟨textOpt.getD [], "tg_" ++ uid, htr⟩, ?_,
          fun send c => typing_loop_run_ok send c⟩
        rw [htr]
        simp [List.count_cons, List.count_eq_zero, List.mem_map]

/-- Witness for C6: a concrete update with text "hi" under a healthy backend
produces the expected non-empty trace. -/
theorem telegram_liveness_protocol_witness :
    (∃ text username,
      handle_message_trace envShortReply "cookies.json"
          ⟨some (some ("hi".data)), some "7"⟩ =
        AdapterEv.startTyping :: AdapterEv.orchestrate text username ::
          AdapterEv.cancelTyping ::
          (splitMessage (telegram_generate_answer envShortReply "cookies.json" text
            username) 4000).map AdapterEv.sendChunk) ∧
    (handle_message_trace envShortReply "cookies.json"
      ⟨some (some ("hi".data)), some "7"⟩).count AdapterEv.cancelTyping = 1 ∧
    (∀ send cancelAt, typing_loop_run send cancelAt = Except.ok ()) :=
  telegram_liveness_protocol envShortReply "cookies.json"
    ⟨some (some ("hi".data)), some "7"⟩ (by decide)

/-- C7 counterexample: on the Slack message with non-whitespace text "hi"
whose reply is 4001 characters long, the Slack adapter's trace contains no
typing-task start and no cancellation, and sends the whole over-length reply
as one chunk instead of segmenting it; its call sequence is therefore not
the Telegram call sequence. -/
theorem slack_adapter_asymmetry_counterexample :
    slack_handle_message_trace envLongReply "cookies.json"
        ⟨some ("hi".data), some "U1"⟩ =
      [AdapterEv.orchestrate ("hi".data) "U1",
       AdapterEv.sendChunk (List.replicate 4001 'a')] ∧
    AdapterEv.startTyping ∉ slack_handle_message_trace envLongReply "cookies.json"
      ⟨some ("hi".data), some "U1"⟩ ∧
    AdapterEv.cancelTyping ∉ slack_handle_message_trace envLongReply "cookies.json"
      ⟨some ("hi".data), some "U1"⟩ ∧
    4000 < (List.replicate 4001 'a').length := by
  have htr : slack_handle_message_trace envLongReply "cookies.json"
      ⟨some ("hi".data), some "U1"⟩ =
      [AdapterEv.orchestrate ("hi".data) "U1",
       AdapterEv.sendChunk (List.replicate 4001 'a')] := rfl
  refine ⟨htr, ?_, ?_, ?_⟩
  · rw [htr]
    decide
  · rw [htr]
    decide
  · rw [List.length_replicate]
    omega

/-- C7 amended: for every inbound Slack message with non-whitespace text,
the Slack adapter calls the orchestrator and then sends the entire reply as
a single message; it starts no liveness signal, cancels none, and performs
no segmentation. -/
theorem slack_adapter_sequence (env : BackendEnv) (cookies : String) (m : SlackMsg)
    (h : (pyStrip (m.text.getD [])).isEmpty = false) :
    slack_handle_message_trace env cookies m =
      [AdapterEv.orchestrate (m.text.getD []) (m.user.getD "unknown"),
       AdapterEv.sendChunk (slack_generate_answer env cookies (m.text.getD [])
         (m.user.getD "unknown"))] ∧
    AdapterEv.startTyping ∉ slack_handle_message_trace env cookies m ∧
    AdapterEv.cancelTyping ∉ slack_handle_message_trace env cookies m := by
  have htr : slack_handle_message_trace env cookies m =
      [AdapterEv.orchestrate (m.text.getD []) (m.user.getD "unknown"),
       AdapterEv.sendChunk (slack_generate_answer env cookies (m.text.getD [])
         (m.user.getD "unknown"))] := by
    unfold slack_handle_message_trace
    rw [if_neg (by rw [h]; simp)]
  refine ⟨htr, ?_, ?_⟩
  · rw [htr]
    simp
  · rw [htr]
    simp

/-- Witness for C7 amended at the concrete message "hi" from user U1. -/
theorem slack_adapter_sequence_witness :
    slack_handle_message_trace envShortReply "cookies.json"
        ⟨some ("hi".data), some "U1"⟩ =
      [AdapterEv.orchestrate ("hi".data) "U1",
       AdapterEv.sendChunk (slack_generate_answer envShortReply "cookies.json"
         ("hi".data) "U1")] ∧
    AdapterEv.startTyping ∉ slack_handle_message_trace envShortReply "cookies.json"
      ⟨some ("hi".data), some "U1"⟩ ∧
    AdapterEv.cancelTyping ∉ slack_handle_message_trace envShortReply "cookies.json"
      ⟨some ("hi".data), some "U1"⟩ :=
  slack_adapter_sequence envShortReply "cookies.json" ⟨some ("hi".data), some "U1"⟩
    (by decide)

/-- C8: whenever the effective platform token is absent (Telegram) or either
Slack token is absent, the launcher returns no handle and its whole action
trace is the single disabled-state log line: no scheduler probe, no task
scheduling and no thread start happen. -/
theorem launcher_disabled_short_circuit
    (tokenOverride cfgToken webhookUrl : Option String)
    (loopRunning useWebhook : Bool)
    (botO appO cfgB cfgA : Option String) (slackLoop : Bool)
    (ht : pyTruthy (orTok tokenOverride cfgToken) = false)
    (hs : pyTruthy (orTok botO cfgB) = false ∨ pyTruthy (orTok appO cfgA) = false) :
    start_telegram_bot_model tokenOverride cfgToken loopRunning useWebhook webhookUrl =
      (none, [LaunchEv.logDisabled]) ∧
    start_slack_bot_model botO appO cfgB cfgA slackLoop =
      (none, [LaunchEv.logDisabled]) ∧
    (∀ ev ∈ (start_telegram_bot_model tokenOverride cfgToken loopRunning useWebhook
        webhookUrl).2, ev = LaunchEv.logDisabled) ∧
    (∀ ev ∈ (start_slack_bot_model botO appO cfgB cfgA slackLoop).2,
      ev = LaunchEv.logDisabled) := by
  have h1 : start_telegram_bot_model tokenOverride cfgToken loopRunning useWebhook
      webhookUrl = (none, [LaunchEv.logDisabled]) := by
    unfold start_telegram_bot_model
    rw [if_pos ht]
  have h2 : start_slack_bot_model botO appO cfgB cfgA slackLoop =
      (none, [LaunchEv.logDisabled]) := by
    unfold start_slack_bot_model
    rw [if_pos (by rcases hs with h | h <;> simp [h])]
  refine ⟨h1, h2, ?_, ?_⟩
  · rw [h1]
    intro ev hev
    simpa using hev
  · rw [h2]
    intro ev hev
    simpa using hev

/-- Witness for C8 with no tokens configured at all. -/
theorem launcher_disabled_short_circuit_witness :
    start_telegram_bot_model none none true false none =
      (none, [LaunchEv.logDisabled]) ∧
    start_slack_bot_model none none none none true =
      (none, [LaunchEv.logDisabled]) ∧
    (∀ ev ∈ (start_telegram_bot_model none none true false none).2,
      ev = LaunchEv.logDisabled) ∧
    (∀ ev ∈ (start_slack_bot_model none none none none true).2,
      ev = LaunchEv.logDisabled) :=
  launcher_disabled_short_circuit none none none true false none none none none true
    rfl (Or.inl rfl)

example : splitMessage ("abc".data) 5 = ["abc".data] := by decide

example : splitMessage ("aa\n\nbbbb\ncc".data) 5 =
    ["aa".data, "bbbb".data, "cc".data] := by decide

example : splitMessage ("aaaaaaa".data) 3 = ["aaa".data, "aaa".data, "a".data] := by decide

example : splitMessage ('\n' :: '\n' :: "xxxxxx".data) 5 =
    [[], "xxxxx".data, "x".data] := by decide
